import Mathlib

/-
Verification development for the multi-brand-scraper repository.

The definitions below are shallow embeddings of the Python source:
the HTTP retry layer RequestManager.make_request
(src/src/utils/request_utils.py), the per-category pagination loop and the
orchestrating scrape method (src/brands/sapphire/scraper/scraper.py and the
textually identical loop in src/brands/khaadi/scraper/scraper.py), the
Sapphire discount computation, the product-name heuristics of both brands,
the Khaadi detail-enrichment pass, and the module-level referrer pool.

Environment interaction (the network, random number generation) is modelled
by explicit parameters: the outcome of each HTTP attempt, the identity each
rotation would install, and the page served for each pagination request are
inputs of the Lean functions.
-/

namespace MultiBrandScraper

/-- Whether the pattern list is an initial segment of the character list. -/
def listStartsWith : List Char → List Char → Bool
  | [], _ => true
  | _ :: _, [] => false
  | p :: ps, c :: cs => p == c && listStartsWith ps cs

/-- Python str.strip with no argument: drop leading and trailing whitespace
characters. -/
def trimChars (l : List Char) : List Char :=
  ((l.dropWhile Char.isWhitespace).reverse.dropWhile Char.isWhitespace).reverse

/-- Value of a digit run read as a decimal numeral. -/
def digitsToNat (l : List Char) : Nat :=
  l.foldl (fun acc c => acc * 10 + (c.toNat - 48)) 0

/-- Python int() applied to a Retry-After header string, followed by
time.sleep on the result: some n when the stripped string is an optionally
signed decimal numeral denoting the non-negative integer n, and none when
make_request lets a ValueError escape instead — int() raises on any other
string, such as the HTTP-date form of Retry-After that RFC 7231 permits,
and time.sleep raises on a negative number of seconds. -/
def pyIntSleep (s : String) : Option Nat :=
  let t := trimChars s.data
  let signed : Bool × List Char :=
    match t with
    | '-' :: rest => (true, rest)
    | '+' :: rest => (false, rest)
    | rest => (false, rest)
  let ds := signed.2
  if ds.isEmpty || !(ds.all Char.isDigit) then none
  else if signed.1 && decide (digitsToNat ds ≠ 0) then none
  else some (digitsToNat ds)

/-- Browser fingerprint presented with a request: the User-Agent and Referer
headers that rotate_identity installs on the httpx session. -/
structure Identity where
  ua : String
  ref : String
deriving DecidableEq, Repr

/-- The explicit headers passed to session.get for the two fingerprint keys:
make_request builds merged_headers as a copy of the session headers updated
with the caller extras, so both keys are always present there.  We keep them
optional at the type level to express the httpx merge honestly. -/
structure ReqHeaders where
  ua : Option String
  ref : Option String
deriving DecidableEq, Repr

/-- The httpx header merge for one request: the client session headers are
copied and then updated with the request-level headers, so a request-level
value overrides the session value for the same key. -/
def sendHeaders (sess : Identity) (req : ReqHeaders) : Identity :=
  ⟨req.ua.getD sess.ua, req.ref.getD sess.ref⟩

/-- Outcome of one HTTP attempt inside make_request.  The first three
constructors are the httpx exceptions the code catches before any response
exists (httpx.ConnectError, httpx.TimeoutException, other
httpx.RequestError); response carries the status code and the optional
Retry-After header of a received response as the raw string found on the
wire — the program, not the environment, converts it with int(). -/
inductive AttemptOutcome where
  | connError
  | timeoutErr
  | requestErr
  | response (status : Nat) (retryAfter : Option String)
deriving DecidableEq, Repr

/-- httpx Response.is_success: a 2xx status.  raise_for_status raises
HTTPStatusError for every other status. -/
def isSuccessStatus (status : Nat) : Bool :=
  decide (200 ≤ status ∧ status < 300)

/-- Whether an attempt outcome is a response with a 2xx status. -/
def isResponse2xx : AttemptOutcome → Bool
  | .response status _ => isSuccessStatus status
  | _ => false

/-- Whether an attempt produced no response object at all (a transport
error caught before any response was assigned). -/
def noResponse : AttemptOutcome → Bool
  | .response _ _ => false
  | _ => true

/-- Delay slept after a failed attempt, none when the attempt makes
make_request raise instead of sleeping: on a 429 response the code sleeps
int(Retry-After) when the header is present — a conversion that may raise
— and otherwise the current backoff delay; every other failure sleeps the
current backoff delay. -/
def sleptDelay : AttemptOutcome → Nat → Option Nat
  | .response status (some s), d => if status = 429 then pyIntSleep s else some d
  | _, d => some d

/-- Whether an attempt makes make_request raise an uncaught ValueError: a
429 response whose present Retry-After header is not a numeral for a
non-negative integer. -/
def raisesValueError : AttemptOutcome → Bool
  | .response status (some s) => decide (status = 429) && (pyIntSleep s).isNone
  | _ => false

/-- Trace of one run of the retry loop of make_request.  raised records
that an uncaught ValueError escaped from the int(Retry-After) conversion
(or the following time.sleep), aborting the call without a return value. -/
structure MRTrace where
  raised : Bool
  success : Bool
  lastStatus : Option Nat
  sleeps : List Nat
  sent : List Identity
  sessionAfter : Identity
deriving DecidableEq, Repr

/-- The for-loop of RequestManager.make_request.  Arguments after merged:
remaining attempts, current attempt index, current backoff delay, status of
the last response received so far (none while no response exists), current
session identity.  outcomes gives the result of each attempt, rots the
identity random.choice would install at each rotation.  Per iteration the
code rotates the session identity when attempt is positive, issues the GET
with the merged_headers snapshot (which httpx lets override the session
headers), breaks on a 2xx, and otherwise sleeps and doubles the delay. -/
def makeRequestLoop (outcomes : Nat → AttemptOutcome) (rots : Nat → Identity)
    (merged : ReqHeaders) :
    Nat → Nat → Nat → Option Nat → Identity → MRTrace
  | 0, _, _, lastResp, sess => ⟨false, false, lastResp, [], [], sess⟩
  | remaining + 1, attempt, delay, lastResp, sess =>
    let sess1 := if 0 < attempt then rots attempt else sess
    let sentNow := sendHeaders sess1 merged
    match outcomes attempt with
    | .response status retryAfter =>
      if isSuccessStatus status then
        ⟨false, true, some status, [], [sentNow], sess1⟩
      else
        match sleptDelay (.response status retryAfter) delay with
        | none =>
          ⟨true, false, some status, [], [sentNow], sess1⟩
        | some slept =>
          let rest := makeRequestLoop outcomes rots merged remaining (attempt + 1)
            (delay * 2) (some status) sess1
          ⟨rest.raised, rest.success, rest.lastStatus, slept :: rest.sleeps,
            sentNow :: rest.sent, rest.sessionAfter⟩
    | _ =>
      let rest := makeRequestLoop outcomes rots merged remaining (attempt + 1)
        (delay * 2) lastResp sess1
      ⟨rest.raised, rest.success, rest.lastStatus, delay :: rest.sleeps,
        sentNow :: rest.sent, rest.sessionAfter⟩

/-- Result of make_request: the returned response status (0 when no response
was ever received and the fake httpx.Response is built), whether any real
response was received, the success flag, and the run trace. -/
structure MRResult where
  raised : Bool
  status : Nat
  receivedResponse : Bool
  success : Bool
  sleeps : List Nat
  sent : List Identity
  attempts : Nat
  sessionAfter : Identity
deriving DecidableEq, Repr

/-- RequestManager.make_request.  sess is the session identity set at
construction; extraUA and extraRef are the caller-supplied header overrides
(the headers argument); merged_headers is the session snapshot updated with
those extras, computed once before the loop. -/
def make_request (retryCount retryDelay : Nat) (sess : Identity)
    (extraUA extraRef : Option String)
    (outcomes : Nat → AttemptOutcome) (rots : Nat → Identity) : MRResult :=
  let merged : ReqHeaders := ⟨some (extraUA.getD sess.ua), some (extraRef.getD sess.ref)⟩
  let t := makeRequestLoop outcomes rots merged (retryCount + 1) 0 retryDelay none sess
  { raised := t.raised
    status := t.lastStatus.getD 0
    receivedResponse := t.lastStatus.isSome
    success := t.success
    sleeps := t.sleeps
    sent := t.sent
    attempts := t.sent.length
    sessionAfter := t.sessionAfter }

/-- Index shift for bounded existentials, used to peel one loop iteration. -/
theorem exists_lt_succ_shift (P : Nat → Prop) (n : Nat) :
    (∃ j, j < n + 1 ∧ P j) ↔ P 0 ∨ ∃ j, j < n ∧ P (j + 1) := by
  constructor
  · rintro ⟨j, hj, hP⟩
    cases j with
    | zero => exact Or.inl hP
    | succ k => exact Or.inr ⟨k, by omega, hP⟩
  · rintro (h0 | ⟨j, hj, hP⟩)
    · exact ⟨0, by omega, h0⟩
    · exact ⟨j + 1, by omega, hP⟩

/-- An attempt sleeps nothing exactly when it raises: sleptDelay is none
iff the attempt is a 429 whose present Retry-After header fails the int()
conversion or the following sleep. -/
theorem sleptDelay_none_iff (o : AttemptOutcome) (d : Nat) :
    sleptDelay o d = none ↔ raisesValueError o = true := by
  cases o with
  | connError => simp [sleptDelay, raisesValueError]
  | timeoutErr => simp [sleptDelay, raisesValueError]
  | requestErr => simp [sleptDelay, raisesValueError]
  | response status retryAfter =>
    cases retryAfter with
    | none => simp [sleptDelay, raisesValueError]
    | some hdr =>
      by_cases h429 : status = 429
      · subst h429
        simp [sleptDelay, raisesValueError, Option.isNone_iff_eq_none]
      · simp [sleptDelay, raisesValueError, h429]

/-- A non-raising attempt has a definite slept delay. -/
theorem sleptDelay_eq_some_of_not_raises (o : AttemptOutcome) (d : Nat)
    (h : raisesValueError o = false) : ∃ w, sleptDelay o d = some w := by
  cases hsd : sleptDelay o d with
  | none =>
    rw [sleptDelay_none_iff] at hsd
    rw [hsd] at h
    exact absurd h (by simp)
  | some w => exact ⟨w, rfl⟩

/-- When no attempt in the window raises, the loop succeeds exactly when
one of the attempts it may still execute returns a 2xx response. -/
theorem makeRequestLoop_success (outcomes : Nat → AttemptOutcome) (rots : Nat → Identity)
    (merged : ReqHeaders) :
    ∀ (remaining attempt delay : Nat) (lastResp : Option Nat) (sess : Identity),
      (∀ j, j < remaining → raisesValueError (outcomes (attempt + j)) = false) →
      ((makeRequestLoop outcomes rots merged remaining attempt delay lastResp sess).success = true ↔
        ∃ j, j < remaining ∧ isResponse2xx (outcomes (attempt + j)) = true) := by
  intro remaining
  induction remaining with
  | zero =>
    intro attempt delay lastResp sess _
    simp [makeRequestLoop]
  | succ n ih =>
    intro attempt delay lastResp sess hnr
    have harg : ∀ j : Nat, attempt + 1 + j = attempt + (j + 1) := by omega
    have hnr1 : ∀ j, j < n → raisesValueError (outcomes (attempt + 1 + j)) = false := by
      intro j hj
      rw [harg j]
      exact hnr (j + 1) (by omega)
    rw [makeRequestLoop]
    rw [exists_lt_succ_shift (fun j => isResponse2xx (outcomes (attempt + j)) = true) n]
    cases h : outcomes attempt with
    | response status retryAfter =>
      by_cases hs : isSuccessStatus status = true
      · simp [hs, isResponse2xx, h]
      · simp only [Bool.not_eq_true] at hs
        have hnr0 : raisesValueError (outcomes attempt) = false := by
          have h0 := hnr 0 (by omega)
          rwa [Nat.add_zero] at h0
        rw [h] at hnr0
        obtain ⟨w, hw⟩ := sleptDelay_eq_some_of_not_raises _ delay hnr0
        have ihh := ih (attempt + 1) (delay * 2) (some status)
          (if 0 < attempt then rots attempt else sess) hnr1
        simp [hs, isResponse2xx, h, hw, harg, ihh]
    | connError =>
      have ihh := ih (attempt + 1) (delay * 2) lastResp
        (if 0 < attempt then rots attempt else sess) hnr1
      simp [isResponse2xx, h, harg, ihh]
    | timeoutErr =>
      have ihh := ih (attempt + 1) (delay * 2) lastResp
        (if 0 < attempt then rots attempt else sess) hnr1
      simp [isResponse2xx, h, harg, ihh]
    | requestErr =>
      have ihh := ih (attempt + 1) (delay * 2) lastResp
        (if 0 < attempt then rots attempt else sess) hnr1
      simp [isResponse2xx, h, harg, ihh]

/-- When no attempt in the window raises, the loop completes without an
escaping ValueError. -/
theorem makeRequestLoop_raised (outcomes : Nat → AttemptOutcome) (rots : Nat → Identity)
    (merged : ReqHeaders) :
    ∀ (remaining attempt delay : Nat) (lastResp : Option Nat) (sess : Identity),
      (∀ j, j < remaining → raisesValueError (outcomes (attempt + j)) = false) →
      (makeRequestLoop outcomes rots merged remaining attempt delay lastResp sess).raised
        = false := by
  intro remaining
  induction remaining with
  | zero =>
    intro attempt delay lastResp sess _
    simp [makeRequestLoop]
  | succ n ih =>
    intro attempt delay lastResp sess hnr
    have hnr1 : ∀ j, j < n → raisesValueError (outcomes (attempt + 1 + j)) = false := by
      intro j hj
      rw [show attempt + 1 + j = attempt + (j + 1) by omega]
      exact hnr (j + 1) (by omega)
    rw [makeRequestLoop]
    cases h : outcomes attempt with
    | response status retryAfter =>
      by_cases hs : isSuccessStatus status = true
      · simp [hs]
      · simp only [Bool.not_eq_true] at hs
        have hnr0 : raisesValueError (outcomes attempt) = false := by
          have h0 := hnr 0 (by omega)
          rwa [Nat.add_zero] at h0
        rw [h] at hnr0
        obtain ⟨w, hw⟩ := sleptDelay_eq_some_of_not_raises _ delay hnr0
        have ihh := ih (attempt + 1) (delay * 2) (some status)
          (if 0 < attempt then rots attempt else sess) hnr1
        simp [hs, hw, ihh]
    | connError =>
      have ihh := ih (attempt + 1) (delay * 2) lastResp
        (if 0 < attempt then rots attempt else sess) hnr1
      simp [ihh]
    | timeoutErr =>
      have ihh := ih (attempt + 1) (delay * 2) lastResp
        (if 0 < attempt then rots attempt else sess) hnr1
      simp [ihh]
    | requestErr =>
      have ihh := ih (attempt + 1) (delay * 2) lastResp
        (if 0 < attempt then rots attempt else sess) hnr1
      simp [ihh]

/-- If no attempt in range produces a response object, the response variable
is left at its entry value. -/
theorem makeRequestLoop_lastStatus (outcomes : Nat → AttemptOutcome) (rots : Nat → Identity)
    (merged : ReqHeaders) :
    ∀ (remaining attempt delay : Nat) (lastResp : Option Nat) (sess : Identity),
      (∀ j, j < remaining → noResponse (outcomes (attempt + j)) = true) →
      (makeRequestLoop outcomes rots merged remaining attempt delay lastResp sess).lastStatus
        = lastResp := by
  intro remaining
  induction remaining with
  | zero =>
    intro attempt delay lastResp sess _
    simp [makeRequestLoop]
  | succ n ih =>
    intro attempt delay lastResp sess hall
    have h0 := hall 0 (by omega)
    rw [makeRequestLoop]
    cases h : outcomes attempt with
    | response status retryAfter =>
      rw [Nat.add_zero, h] at h0
      simp [noResponse] at h0
    | connError =>
      simp only [h]
      exact ih (attempt + 1) (delay * 2) lastResp _
        (fun j hj => by have := hall (j + 1) (by omega); rwa [show attempt + (j + 1) = attempt + 1 + j by omega] at this)
    | timeoutErr =>
      simp only [h]
      exact ih (attempt + 1) (delay * 2) lastResp _
        (fun j hj => by have := hall (j + 1) (by omega); rwa [show attempt + (j + 1) = attempt + 1 + j by omega] at this)
    | requestErr =>
      simp only [h]
      exact ih (attempt + 1) (delay * 2) lastResp _
        (fun j hj => by have := hall (j + 1) (by omega); rwa [show attempt + (j + 1) = attempt + 1 + j by omega] at this)

/-- Whether an attempt outcome is a 429 response carrying a Retry-After
header, the one case in which the code does not sleep the current backoff
delay. -/
def is429WithRetryAfter : AttemptOutcome → Bool
  | .response status (some _) => decide (status = 429)
  | _ => false

/-- Value of each recorded sleep: position i holds the delay slept after
attempt i, which is sleptDelay of that attempt at backoff delay * 2 ^ i
(a raising attempt records no sleep and nothing follows it). -/
theorem makeRequestLoop_sleeps_get (outcomes : Nat → AttemptOutcome) (rots : Nat → Identity)
    (merged : ReqHeaders) :
    ∀ (remaining attempt delay : Nat) (lastResp : Option Nat) (sess : Identity) (i : Nat),
      i < (makeRequestLoop outcomes rots merged remaining attempt delay lastResp sess).sleeps.length →
      (makeRequestLoop outcomes rots merged remaining attempt delay lastResp sess).sleeps.get? i
        = sleptDelay (outcomes (attempt + i)) (delay * 2 ^ i) := by
  intro remaining
  induction remaining with
  | zero =>
    intro attempt delay lastResp sess i hi
    simp [makeRequestLoop] at hi
  | succ n ih =>
    intro attempt delay lastResp sess i hi
    rw [makeRequestLoop] at hi ⊢
    have e1 : ∀ k : Nat, attempt + 1 + k = attempt + (k + 1) := by omega
    have e2 : ∀ k : Nat, delay * 2 * 2 ^ k = delay * 2 ^ (k + 1) := by
      intro k
      ring
    cases h : outcomes attempt with
    | response status retryAfter =>
      rw [h] at hi
      by_cases hs : isSuccessStatus status = true
      · simp [hs] at hi
      · simp only [Bool.not_eq_true] at hs
        simp only [hs, Bool.false_eq_true, if_false] at hi ⊢
        cases hsd : sleptDelay (.response status retryAfter) delay with
        | none =>
          rw [hsd] at hi
          simp at hi
        | some w =>
          rw [hsd] at hi
          cases i with
          | zero =>
            simp [h, hsd]
          | succ k =>
            simp only [List.length_cons, Nat.succ_lt_succ_iff] at hi
            simp only [List.get?_cons_succ]
            rw [← e1 k, ← e2 k]
            exact ih (attempt + 1) (delay * 2) (some status) _ k hi
    | connError =>
      rw [h] at hi
      cases i with
      | zero => simp [h, sleptDelay]
      | succ k =>
        simp only [List.length_cons, Nat.succ_lt_succ_iff] at hi
        simp only [List.get?_cons_succ]
        rw [← e1 k, ← e2 k]
        exact ih (attempt + 1) (delay * 2) lastResp _ k hi
    | timeoutErr =>
      rw [h] at hi
      cases i with
      | zero => simp [h, sleptDelay]
      | succ k =>
        simp only [List.length_cons, Nat.succ_lt_succ_iff] at hi
        simp only [List.get?_cons_succ]
        rw [← e1 k, ← e2 k]
        exact ih (attempt + 1) (delay * 2) lastResp _ k hi
    | requestErr =>
      rw [h] at hi
      cases i with
      | zero => simp [h, sleptDelay]
      | succ k =>
        simp only [List.length_cons, Nat.succ_lt_succ_iff] at hi
        simp only [List.get?_cons_succ]
        rw [← e1 k, ← e2 k]
        exact ih (attempt + 1) (delay * 2) lastResp _ k hi

/-- When the first 2xx outcome sits at offset k inside the window the loop
may execute, with no earlier attempt succeeding or raising, the loop sleeps
exactly k times and issues exactly k + 1 attempts: the successful attempt
breaks before any further sleep. -/
theorem makeRequestLoop_firstSuccess (outcomes : Nat → AttemptOutcome) (rots : Nat → Identity)
    (merged : ReqHeaders) :
    ∀ (remaining attempt delay : Nat) (lastResp : Option Nat) (sess : Identity) (k : Nat),
      k < remaining →
      (∀ j, j < k → isResponse2xx (outcomes (attempt + j)) = false ∧
        raisesValueError (outcomes (attempt + j)) = false) →
      isResponse2xx (outcomes (attempt + k)) = true →
      (makeRequestLoop outcomes rots merged remaining attempt delay lastResp sess).sleeps.length = k ∧
      (makeRequestLoop outcomes rots merged remaining attempt delay lastResp sess).sent.length = k + 1 := by
  intro remaining
  induction remaining with
  | zero =>
    intro attempt delay lastResp sess k hk _ _
    omega
  | succ n ih =>
    intro attempt delay lastResp sess k hk hbefore hsucc
    rw [makeRequestLoop]
    cases k with
    | zero =>
      rw [Nat.add_zero] at hsucc
      cases h : outcomes attempt with
      | response status retryAfter =>
        rw [h] at hsucc
        simp only [isResponse2xx] at hsucc
        simp [hsucc]
      | connError => rw [h] at hsucc; simp [isResponse2xx] at hsucc
      | timeoutErr => rw [h] at hsucc; simp [isResponse2xx] at hsucc
      | requestErr => rw [h] at hsucc; simp [isResponse2xx] at hsucc
    | succ m =>
      have h0 : isResponse2xx (outcomes attempt) = false := by
        have := (hbefore 0 (by omega)).1
        rwa [Nat.add_zero] at this
      have hr0 : raisesValueError (outcomes attempt) = false := by
        have := (hbefore 0 (by omega)).2
        rwa [Nat.add_zero] at this
      have hshift : ∀ j, j < m → isResponse2xx (outcomes (attempt + 1 + j)) = false ∧
          raisesValueError (outcomes (attempt + 1 + j)) = false := by
        intro j hj
        have := hbefore (j + 1) (by omega)
        rwa [show attempt + (j + 1) = attempt + 1 + j by omega] at this
      have hsucc1 : isResponse2xx (outcomes (attempt + 1 + m)) = true := by
        rwa [show attempt + (m + 1) = attempt + 1 + m by omega] at hsucc
      cases h : outcomes attempt with
      | response status retryAfter =>
        rw [h] at h0 hr0
        simp only [isResponse2xx] at h0
        obtain ⟨w, hw⟩ := sleptDelay_eq_some_of_not_raises _ delay hr0
        simp only [h0, Bool.false_eq_true, if_false, hw, List.length_cons]
        have := ih (attempt + 1) (delay * 2) (some status)
          (if 0 < attempt then rots attempt else sess) m (by omega) hshift hsucc1
        omega
      | connError =>
        simp only [List.length_cons]
        have := ih (attempt + 1) (delay * 2) lastResp
          (if 0 < attempt then rots attempt else sess) m (by omega) hshift hsucc1
        omega
      | timeoutErr =>
        simp only [List.length_cons]
        have := ih (attempt + 1) (delay * 2) lastResp
          (if 0 < attempt then rots attempt else sess) m (by omega) hshift hsucc1
        omega
      | requestErr =>
        simp only [List.length_cons]
        have := ih (attempt + 1) (delay * 2) lastResp
          (if 0 < attempt then rots attempt else sess) m (by omega) hshift hsucc1
        omega

/-- The loop never issues more attempts than it has remaining. -/
theorem makeRequestLoop_sent_le (outcomes : Nat → AttemptOutcome) (rots : Nat → Identity)
    (merged : ReqHeaders) :
    ∀ (remaining attempt delay : Nat) (lastResp : Option Nat) (sess : Identity),
      (makeRequestLoop outcomes rots merged remaining attempt delay lastResp sess).sent.length
        ≤ remaining := by
  intro remaining
  induction remaining with
  | zero =>
    intro attempt delay lastResp sess
    simp [makeRequestLoop]
  | succ n ih =>
    intro attempt delay lastResp sess
    rw [makeRequestLoop]
    cases h : outcomes attempt with
    | response status retryAfter =>
      by_cases hs : isSuccessStatus status = true
      · simp [hs]
      · simp only [Bool.not_eq_true] at hs
        cases hsd : sleptDelay (.response status retryAfter) delay with
        | none =>
          simp only [hs, Bool.false_eq_true, if_false, hsd, List.length_singleton]
          omega
        | some w =>
          simp only [hs, Bool.false_eq_true, if_false, hsd, List.length_cons]
          have := ih (attempt + 1) (delay * 2) (some status)
            (if 0 < attempt then rots attempt else sess)
          omega
    | connError =>
      simp only [List.length_cons]
      have := ih (attempt + 1) (delay * 2) lastResp (if 0 < attempt then rots attempt else sess)
      omega
    | timeoutErr =>
      simp only [List.length_cons]
      have := ih (attempt + 1) (delay * 2) lastResp (if 0 < attempt then rots attempt else sess)
      omega
    | requestErr =>
      simp only [List.length_cons]
      have := ih (attempt + 1) (delay * 2) lastResp (if 0 < attempt then rots attempt else sess)
      omega

/-- Away from the uncaught-ValueError path of C1 — whenever every 429
response that carries a Retry-After header carries a numeral for a
non-negative integer — make_request returns a (response, success) pair
without raising: success is true iff some attempt received a 2xx response,
and when no attempt ever received a response the returned response object
carries status code 0. -/
theorem make_request_absorbs_wellformed_retry_after
    (retryCount retryDelay : Nat) (sess : Identity) (extraUA extraRef : Option String)
    (outcomes : Nat → AttemptOutcome) (rots : Nat → Identity)
    (hwf : ∀ k, k ≤ retryCount → raisesValueError (outcomes k) = false) :
    (make_request retryCount retryDelay sess extraUA extraRef outcomes rots).raised = false ∧
    ((make_request retryCount retryDelay sess extraUA extraRef outcomes rots).success = true ↔
      ∃ k, k ≤ retryCount ∧ isResponse2xx (outcomes k) = true) ∧
    ((∀ k, k ≤ retryCount → noResponse (outcomes k) = true) →
      (make_request retryCount retryDelay sess extraUA extraRef outcomes rots).status = 0 ∧
      (make_request retryCount retryDelay sess extraUA extraRef outcomes rots).success = false) := by
  have hwf0 : ∀ j, j < retryCount + 1 →
      raisesValueError (outcomes (0 + j)) = false := by
    intro j hj
    rw [Nat.zero_add]
    exact hwf j (by omega)
  refine ⟨?_, ?_, ?_⟩
  · exact makeRequestLoop_raised outcomes rots
      ⟨some (extraUA.getD sess.ua), some (extraRef.getD sess.ref)⟩
      (retryCount + 1) 0 retryDelay none sess hwf0
  · rw [show (make_request retryCount retryDelay sess extraUA extraRef outcomes rots).success
        = (makeRequestLoop outcomes rots
            ⟨some (extraUA.getD sess.ua), some (extraRef.getD sess.ref)⟩
            (retryCount + 1) 0 retryDelay none sess).success from rfl]
    rw [makeRequestLoop_success outcomes rots
      ⟨some (extraUA.getD sess.ua), some (extraRef.getD sess.ref)⟩
      (retryCount + 1) 0 retryDelay none sess hwf0]
    constructor
    · rintro ⟨j, hj, h2⟩
      exact ⟨j, by omega, by simpa using h2⟩
    · rintro ⟨k, hk, h2⟩
      exact ⟨k, by omega, by simpa using h2⟩
  · intro hall
    have hls : (makeRequestLoop outcomes rots
        ⟨some (extraUA.getD sess.ua), some (extraRef.getD sess.ref)⟩
        (retryCount + 1) 0 retryDelay none sess).lastStatus = none :=
      makeRequestLoop_lastStatus outcomes rots _ (retryCount + 1) 0 retryDelay none sess
        (fun j hj => by simpa using hall j (by omega))
    have hsucc : ¬ ∃ j, j < retryCount + 1 ∧ isResponse2xx (outcomes (0 + j)) = true := by
      rintro ⟨j, hj, h2⟩
      have := hall j (by omega)
      rw [show (0 : Nat) + j = j from by omega] at h2
      cases houtj : outcomes j with
      | response status retryAfter => rw [houtj] at this; simp [noResponse] at this
      | connError => rw [houtj] at h2; simp [isResponse2xx] at h2
      | timeoutErr => rw [houtj] at h2; simp [isResponse2xx] at h2
      | requestErr => rw [houtj] at h2; simp [isResponse2xx] at h2
    constructor
    · show (makeRequestLoop outcomes rots _ (retryCount + 1) 0 retryDelay none sess).lastStatus.getD 0 = 0
      rw [hls]
      rfl
    · show (makeRequestLoop outcomes rots _ (retryCount + 1) 0 retryDelay none sess).success = false
      have hiff := (makeRequestLoop_success outcomes rots
        ⟨some (extraUA.getD sess.ua), some (extraRef.getD sess.ref)⟩
        (retryCount + 1) 0 retryDelay none sess hwf0)
      rcases hb : (makeRequestLoop outcomes rots
          ⟨some (extraUA.getD sess.ua), some (extraRef.getD sess.ref)⟩
          (retryCount + 1) 0 retryDelay none sess).success with _ | _
      · rfl
      · exact absurd (hiff.mp hb) hsucc

/-- Attempt outcomes exhibiting the uncaught-exception path: every attempt
is rate limited with the HTTP-date form of the Retry-After header. -/
def c1Outcomes : Nat → AttemptOutcome :=
  fun _ => .response 429 (some "Fri, 31 Dec 1999 23:59:59 GMT")

/-- C1: make_request does not absorb every failure in its quantified
pattern space.  A 429 response whose Retry-After header holds the
HTTP-date form that RFC 7231 permits reaches int(), which raises a
ValueError no except clause catches, so the call raises instead of
returning a (response, success) pair; the same call with a numeric
Retry-After header is absorbed. -/
theorem make_request_raises_on_http_date_retry_after :
    pyIntSleep "Fri, 31 Dec 1999 23:59:59 GMT" = none ∧
    (make_request 3 5 ⟨"ua0", "ref0"⟩ none none c1Outcomes
        (fun _ => ⟨"ua0", "ref0"⟩)).raised = true ∧
    (make_request 3 5 ⟨"ua0", "ref0"⟩ none none
        (fun _ => .response 429 (some "100")) (fun _ => ⟨"ua0", "ref0"⟩)).raised = false := by
  exact ⟨rfl, rfl, rfl⟩

/-- C2 (amended): within one make_request call, the delay slept after the
k-th failed attempt (1-indexed k, so list position i = k - 1) equals
retry_delay * 2 ^ (k - 1) whenever that attempt was not a 429 response
carrying a Retry-After header; for a 429 response whose Retry-After header
converts to ra the value ra is slept instead; doubling starts after the
first failure; the first 2xx response short-circuits with no further
sleeping when no earlier attempt aborted the call through the ValueError
path of C1; and at most retry_count + 1 attempts are made. -/
theorem make_request_backoff_schedule
    (retryCount retryDelay : Nat) (sess : Identity) (extraUA extraRef : Option String)
    (outcomes : Nat → AttemptOutcome) (rots : Nat → Identity) :
    (∀ i, i < (make_request retryCount retryDelay sess extraUA extraRef outcomes rots).sleeps.length →
      is429WithRetryAfter (outcomes i) = false →
      (make_request retryCount retryDelay sess extraUA extraRef outcomes rots).sleeps.get? i
        = some (retryDelay * 2 ^ i)) ∧
    (∀ (i : Nat) (hdr : String) (ra : Nat),
      i < (make_request retryCount retryDelay sess extraUA extraRef outcomes rots).sleeps.length →
      outcomes i = .response 429 (some hdr) → pyIntSleep hdr = some ra →
      (make_request retryCount retryDelay sess extraUA extraRef outcomes rots).sleeps.get? i
        = some ra) ∧
    (∀ k, k ≤ retryCount → isResponse2xx (outcomes k) = true →
      (∀ j, j < k → isResponse2xx (outcomes j) = false ∧
        raisesValueError (outcomes j) = false) →
      (make_request retryCount retryDelay sess extraUA extraRef outcomes rots).sleeps.length = k ∧
      (make_request retryCount retryDelay sess extraUA extraRef outcomes rots).attempts = k + 1) ∧
    (make_request retryCount retryDelay sess extraUA extraRef outcomes rots).attempts
      ≤ retryCount + 1 := by
  refine ⟨?_, ?_, ?_, ?_⟩
  · intro i hi h429
    have hget := makeRequestLoop_sleeps_get outcomes rots
      ⟨some (extraUA.getD sess.ua), some (extraRef.getD sess.ref)⟩
      (retryCount + 1) 0 retryDelay none sess i hi
    rw [show (make_request retryCount retryDelay sess extraUA extraRef outcomes rots).sleeps
        = (makeRequestLoop outcomes rots
            ⟨some (extraUA.getD sess.ua), some (extraRef.getD sess.ref)⟩
            (retryCount + 1) 0 retryDelay none sess).sleeps from rfl]
    rw [hget, Nat.zero_add]
    cases hout : outcomes i with
    | response status retryAfter =>
      cases retryAfter with
      | none => simp [sleptDelay]
      | some hdr =>
        rw [hout] at h429
        simp only [is429WithRetryAfter, decide_eq_false_iff_not] at h429
        simp [sleptDelay, h429]
    | connError => simp [sleptDelay]
    | timeoutErr => simp [sleptDelay]
    | requestErr => simp [sleptDelay]
  · intro i hdr ra hi hout hparse
    have hget := makeRequestLoop_sleeps_get outcomes rots
      ⟨some (extraUA.getD sess.ua), some (extraRef.getD sess.ref)⟩
      (retryCount + 1) 0 retryDelay none sess i hi
    rw [show (make_request retryCount retryDelay sess extraUA extraRef outcomes rots).sleeps
        = (makeRequestLoop outcomes rots
            ⟨some (extraUA.getD sess.ua), some (extraRef.getD sess.ref)⟩
            (retryCount + 1) 0 retryDelay none sess).sleeps from rfl]
    rw [hget, Nat.zero_add, hout]
    simp [sleptDelay, hparse]
  · intro k hk h2 hbefore
    exact makeRequestLoop_firstSuccess outcomes rots
      ⟨some (extraUA.getD sess.ua), some (extraRef.getD sess.ref)⟩
      (retryCount + 1) 0 retryDelay none sess k (by omega)
      (fun j hj => by simpa using hbefore j hj) (by simpa using h2)
  · exact makeRequestLoop_sent_le outcomes rots
      ⟨some (extraUA.getD sess.ua), some (extraRef.getD sess.ref)⟩
      (retryCount + 1) 0 retryDelay none sess

/-- Attempt outcomes refuting C2 as stated: the very first attempt is a 429
response carrying the header Retry-After: 100. -/
def c2Outcomes : Nat → AttemptOutcome :=
  fun _ => .response 429 (some "100")

/-- C2 (counterexample to the claim as stated): with retry_delay = 5 and a
429 response carrying Retry-After 100 on the first attempt, the delay slept
after the 1st failed attempt is 100, not retry_delay * 2 ^ 0 = 5. -/
theorem make_request_backoff_counterexample :
    (make_request 1 5 ⟨"ua0", "ref0"⟩ none none c2Outcomes
        (fun _ => ⟨"ua0", "ref0"⟩)).sleeps.get? 0 = some 100 ∧
    (100 : Nat) ≠ 5 * 2 ^ 0 := by
  constructor
  · rfl
  · decide

/-- Attempt outcomes exercising every clause of the amended backoff
schedule: a 429 with a numeric Retry-After, then a transport failure, then
a 2xx. -/
def c2wOutcomes : Nat → AttemptOutcome :=
  fun k => if k = 0 then .response 429 (some "7")
    else if k = 1 then .connError
    else .response 200 none

/-- Witness for the amended C2 theorem at a concrete run: retry_count 3,
retry_delay 5, outcomes 429 with Retry-After 7, connection error, 200. -/
theorem make_request_backoff_schedule_witness :
    (make_request 3 5 ⟨"ua0", "ref0"⟩ none none c2wOutcomes
        (fun _ => ⟨"ua1", "ref1"⟩)).sleeps.get? 1 = some (5 * 2 ^ 1) ∧
    (make_request 3 5 ⟨"ua0", "ref0"⟩ none none c2wOutcomes
        (fun _ => ⟨"ua1", "ref1"⟩)).sleeps.get? 0 = some 7 ∧
    (make_request 3 5 ⟨"ua0", "ref0"⟩ none none c2wOutcomes
        (fun _ => ⟨"ua1", "ref1"⟩)).sleeps.length = 2 ∧
    (make_request 3 5 ⟨"ua0", "ref0"⟩ none none c2wOutcomes
        (fun _ => ⟨"ua1", "ref1"⟩)).attempts = 3 ∧
    (make_request 3 5 ⟨"ua0", "ref0"⟩ none none c2wOutcomes
        (fun _ => ⟨"ua1", "ref1"⟩)).attempts ≤ 4 := by
  have h := make_request_backoff_schedule 3 5 ⟨"ua0", "ref0"⟩ none none c2wOutcomes
    (fun _ => ⟨"ua1", "ref1"⟩)
  have hlen : (make_request 3 5 ⟨"ua0", "ref0"⟩ none none c2wOutcomes
      (fun _ => ⟨"ua1", "ref1"⟩)).sleeps.length = 2 :=
    (h.2.2.1 2 (by decide) (by decide)
      (fun j hj => by interval_cases j <;> exact ⟨by decide, by decide⟩)).1
  have hatt : (make_request 3 5 ⟨"ua0", "ref0"⟩ none none c2wOutcomes
      (fun _ => ⟨"ua1", "ref1"⟩)).attempts = 3 :=
    (h.2.2.1 2 (by decide) (by decide)
      (fun j hj => by interval_cases j <;> exact ⟨by decide, by decide⟩)).2
  refine ⟨?_, ?_, hlen, hatt, h.2.2.2⟩
  · exact h.1 1 (by rw [hlen]; decide) (by decide)
  · exact h.2.1 0 "7" 7 (by rw [hlen]; decide) (by decide) (by decide)

/-- Attempt outcomes for the identity-rotation analysis: the first attempt
hits a connection error, the retry succeeds. -/
def c3Outcomes : Nat → AttemptOutcome :=
  fun k => if k = 0 then .connError else .response 200 none

/-- Identity the rotation before each retry would install. -/
def c3Rots : Nat → Identity :=
  fun _ => ⟨"UA-B", "R-B"⟩

/-- C3: rotate_identity is called before each retry and does update the
session headers (sessionAfter is the rotated identity), but the request is
issued with the merged_headers snapshot computed before the first attempt,
and httpx gives those request-level headers precedence, so the retry sends
the pre-call fingerprint UA-A/R-A, not the freshly rotated UA-B/R-B: the
fingerprint sent with the retry equals the one sent with attempt 0. -/
theorem make_request_retry_sends_stale_identity :
    (make_request 1 5 ⟨"UA-A", "R-A"⟩ none none c3Outcomes c3Rots).sent
        = [⟨"UA-A", "R-A"⟩, ⟨"UA-A", "R-A"⟩] ∧
    (make_request 1 5 ⟨"UA-A", "R-A"⟩ none none c3Outcomes c3Rots).sessionAfter
        = ⟨"UA-B", "R-B"⟩ ∧
    (Identity.mk "UA-A" "R-A") ≠ (Identity.mk "UA-B" "R-B") := by
  refine ⟨rfl, rfl, ?_⟩
  decide

section Pagination

variable {α : Type}

/-- Outcome of one pagination request as _scrape_category consumes it:
failed is make_request returning success = false, raised is an unexpected
exception while processing the page (caught by the surrounding except
clause), and page is a parsed document with its no-results marker flag and
the records _extract_products returns for it. -/
inductive PageOutcome (α : Type) where
  | failed
  | raised
  | page (noResults : Bool) (records : List α)
deriving DecidableEq, Repr

/-- The while-loop of _scrape_category (identical control flow in the
Sapphire and Khaadi scrapers).  env lists the outcome of each request the
loop would issue in order; acc, start and page carry the loop state.  The
result pairs the accumulated category records (none when env ran out while
the loop would continue, a model artifact) with the (start, page) parameters
of each request actually issued.  Branch order follows the source: the
product-limit check at the top of the loop before any request, then the
request, the no-results marker, the empty-extraction check, the truncation
to the remaining quota, the extension, the last-page check, and otherwise
advance start by page_size and page by 1. -/
def scrapeCategoryLoop (pageSize productLimit : Nat) :
    List (PageOutcome α) → List α → Nat → Nat → Option (List α) × List (Nat × Nat)
  | [], acc, _, _ =>
    if 0 < productLimit ∧ productLimit ≤ acc.length then
      (some (acc.take productLimit), [])
    else (none, [])
  | .failed :: _, acc, start, page =>
    if 0 < productLimit ∧ productLimit ≤ acc.length then
      (some (acc.take productLimit), [])
    else (some acc, [(start, page)])
  | .raised :: _, acc, start, page =>
    if 0 < productLimit ∧ productLimit ≤ acc.length then
      (some (acc.take productLimit), [])
    else (some acc, [(start, page)])
  | .page noResults records :: rest, acc, start, page =>
    if 0 < productLimit ∧ productLimit ≤ acc.length then
      (some (acc.take productLimit), [])
    else if noResults then (some acc, [(start, page)])
    else if records.isEmpty then (some acc, [(start, page)])
    else if 0 < productLimit ∧ productLimit - acc.length < records.length then
      (some (acc ++ records.take (productLimit - acc.length)), [(start, page)])
    else if records.length < pageSize then
      (some (acc ++ records), [(start, page)])
    else
      let r := scrapeCategoryLoop pageSize productLimit rest (acc ++ records)
        (start + pageSize) (page + 1)
      (r.1, (start, page) :: r.2)

/-- _scrape_category: run the pagination loop from start = 0, page = 1 with
an empty accumulator. -/
def scrape_category (pageSize productLimit : Nat) (env : List (PageOutcome α)) :
    Option (List α) × List (Nat × Nat) :=
  scrapeCategoryLoop pageSize productLimit env [] 0 1

/-- _scrape_sequential: iterate the categories in order with the full
product limit per category, stopping early once the accumulated total
reaches the limit. -/
def scrapeSequential (pageSize productLimit : Nat) :
    List (List (PageOutcome α)) → List α → Option (List α)
  | [], acc => some acc
  | env :: rest, acc =>
    match (scrape_category pageSize productLimit env).1 with
    | none => none
    | some categoryProducts =>
      let acc2 := acc ++ categoryProducts
      if 0 < productLimit ∧ productLimit ≤ acc2.length then some (acc2.take productLimit)
      else scrapeSequential pageSize productLimit rest acc2

/-- The futures-collection loop of scrape: every category task runs the
pagination loop with the per-category limit, and the results are merged in
completion order (modelled by the order of envs, which the theorems
quantify over). -/
def scrapeParallel (pageSize perCategory : Nat) :
    List (List (PageOutcome α)) → Option (List α)
  | [] => some []
  | env :: rest =>
    match (scrape_category pageSize perCategory env).1,
        scrapeParallel pageSize perCategory rest with
    | some categoryProducts, some acc => some (categoryProducts ++ acc)
    | _, _ => none

/-- SapphireScraper.scrape (same structure in KhaadiScraper.scrape before
its optional enrichment pass): one env per category.  A single category
falls back to the sequential path with the full limit; otherwise each
category task receives product_limit // category-count as its share
(0 meaning unlimited), and after the merge the combined list is truncated
to the global limit when it exceeds it.  maxWorkers only bounds the thread
pool and does not affect the collected records. -/
def scrape (pageSize maxWorkers productLimit : Nat)
    (envs : List (List (PageOutcome α))) : Option (List α) :=
  if envs.length ≤ 1 then
    scrapeSequential pageSize productLimit envs []
  else
    match scrapeParallel pageSize
        (if 0 < productLimit then productLimit / envs.length else 0) envs with
    | none => none
    | some allProducts =>
      some (if 0 < productLimit ∧ productLimit < allProducts.length then
        allProducts.take productLimit else allProducts)

/-- Once the accumulated total has reached a positive limit, the loop
returns the truncated accumulator without issuing any request, whatever
outcomes the environment still holds. -/
theorem scrapeCategoryLoop_limitReached (pageSize productLimit : Nat)
    (env : List (PageOutcome α)) (acc : List α) (start page : Nat)
    (h : 0 < productLimit ∧ productLimit ≤ acc.length) :
    scrapeCategoryLoop pageSize productLimit env acc start page
      = (some (acc.take productLimit), []) := by
  cases env with
  | nil => rw [scrapeCategoryLoop, if_pos h]
  | cons o rest =>
    cases o with
    | failed => rw [scrapeCategoryLoop, if_pos h]
    | raised => rw [scrapeCategoryLoop, if_pos h]
    | page nr recs => rw [scrapeCategoryLoop, if_pos h]

/-- C4: the pagination loop of _scrape_category stops with the request it
just issued exactly when that page shows the no-results marker, or yields
fewer than page_size records, or makes the running per-category total reach
the limit, or the request failed or processing raised — and never earlier:
a successful page with at least page_size records that leaves the limit
unreached leads to exactly one more recursion with start advanced by
page_size and page incremented by 1, so a further request is issued. -/
theorem scrape_category_pagination (pageSize productLimit : Nat)
    (noResults : Bool) (records : List α) (rest : List (PageOutcome α))
    (acc : List α) (start page : Nat)
    (htop : ¬ (0 < productLimit ∧ productLimit ≤ acc.length)) :
    ((noResults = true ∨ records.length < pageSize ∨
        (0 < productLimit ∧ productLimit ≤ acc.length + records.length)) →
      (scrapeCategoryLoop pageSize productLimit (.page noResults records :: rest) acc start page).2
          = [(start, page)] ∧
      (scrapeCategoryLoop pageSize productLimit
          (.page noResults records :: rest) acc start page).1.isSome = true) ∧
    (scrapeCategoryLoop pageSize productLimit (.failed :: rest) acc start page
        = (some acc, [(start, page)])) ∧
    (scrapeCategoryLoop pageSize productLimit (.raised :: rest) acc start page
        = (some acc, [(start, page)])) ∧
    (noResults = false → records ≠ [] → pageSize ≤ records.length →
      (0 < productLimit → acc.length + records.length < productLimit) →
      scrapeCategoryLoop pageSize productLimit (.page noResults records :: rest) acc start page
        = ((scrapeCategoryLoop pageSize productLimit rest (acc ++ records)
              (start + pageSize) (page + 1)).1,
           (start, page) :: (scrapeCategoryLoop pageSize productLimit rest (acc ++ records)
              (start + pageSize) (page + 1)).2)) := by
  refine ⟨?_, ?_, ?_, ?_⟩
  · intro hstop
    rw [scrapeCategoryLoop, if_neg htop]
    split_ifs with h1 h2 h3 h4
    · exact ⟨rfl, rfl⟩
    · exact ⟨rfl, rfl⟩
    · exact ⟨rfl, rfl⟩
    · exact ⟨rfl, rfl⟩
    · have hlim : 0 < productLimit ∧ productLimit ≤ acc.length + records.length := by
        rcases hstop with hnr | hlt | hlim
        · exact absurd hnr h1
        · omega
        · exact hlim
      rw [scrapeCategoryLoop_limitReached pageSize productLimit rest (acc ++ records)
        (start + pageSize) (page + 1) ⟨hlim.1, by rw [List.length_append]; exact hlim.2⟩]
      exact ⟨rfl, rfl⟩
  · rw [scrapeCategoryLoop, if_neg htop]
  · rw [scrapeCategoryLoop, if_neg htop]
  · intro hnr hne hps hquota
    subst hnr
    rw [scrapeCategoryLoop, if_neg htop]
    rw [if_neg (by simp)]
    rw [if_neg (by simp [List.isEmpty_iff, hne])]
    rw [if_neg (by intro hc; rcases hc with ⟨hpl, hc⟩; have := hquota hpl; omega)]
    rw [if_neg (by omega)]

/-- Witness for the pagination theorem: the continue case at the boundary
between the first and second page of the end-to-end scenario with
page_size = 12, no limit, a full page of 12 records already accumulated
and a final page of 5 records ahead. -/
theorem scrape_category_pagination_witness :
    scrapeCategoryLoop 12 0
        [PageOutcome.page false (List.range 12), PageOutcome.page false (List.range 5)]
        (List.range 12) 12 2
      = ((scrapeCategoryLoop 12 0 [PageOutcome.page false (List.range 5)]
            (List.range 12 ++ List.range 12) 24 3).1,
         (12, 2) :: (scrapeCategoryLoop 12 0 [PageOutcome.page false (List.range 5)]
            (List.range 12 ++ List.range 12) 24 3).2) :=
  (scrape_category_pagination 12 0 false (List.range 12)
      [PageOutcome.page false (List.range 5)] (List.range 12) 12 2
      (by simp)).2.2.2 rfl (by decide) (by decide) (by omega)

/-- The pagination loop never returns more records than a positive limit:
the truncation to the remaining quota and the top-of-loop check keep the
accumulator within the limit. -/
theorem scrapeCategoryLoop_length_le (pageSize productLimit : Nat) :
    ∀ (env : List (PageOutcome α)) (acc : List α) (start page : Nat),
      0 < productLimit → acc.length ≤ productLimit →
      ∀ l, (scrapeCategoryLoop pageSize productLimit env acc start page).1 = some l →
        l.length ≤ productLimit := by
  intro env
  induction env with
  | nil =>
    intro acc start page hpl hacc l hl
    rw [scrapeCategoryLoop] at hl
    split_ifs at hl with h
    simp only [Option.some.injEq] at hl
    subst hl
    simp [List.length_take]
  | cons o rest ih =>
    cases o with
    | failed =>
      intro acc start page hpl hacc l hl
      rw [scrapeCategoryLoop] at hl
      split_ifs at hl with h
      · simp only [Option.some.injEq] at hl
        subst hl
        simp [List.length_take]
      · simp only [Option.some.injEq] at hl
        subst hl
        exact hacc
    | raised =>
      intro acc start page hpl hacc l hl
      rw [scrapeCategoryLoop] at hl
      split_ifs at hl with h
      · simp only [Option.some.injEq] at hl
        subst hl
        simp [List.length_take]
      · simp only [Option.some.injEq] at hl
        subst hl
        exact hacc
    | page noResults records =>
      intro acc start page hpl hacc l hl
      rw [scrapeCategoryLoop] at hl
      split_ifs at hl with h1 h2 h3 h4 h5
      · simp only [Option.some.injEq] at hl
        subst hl
        simp [List.length_take]
      · simp only [Option.some.injEq] at hl
        subst hl
        exact hacc
      · simp only [Option.some.injEq] at hl
        subst hl
        exact hacc
      · simp only [Option.some.injEq] at hl
        subst hl
        simp only [List.length_append, List.length_take]
        omega
      · simp only [Option.some.injEq] at hl
        subst hl
        simp only [List.length_append]
        omega
      · exact ih (acc ++ records) (start + pageSize) (page + 1) hpl
          (by simp only [List.length_append]; omega) l hl

/-- The sequential path respects a positive product limit. -/
theorem scrapeSequential_length_le (pageSize productLimit : Nat) :
    ∀ (envs : List (List (PageOutcome α))) (acc : List α),
      0 < productLimit → acc.length ≤ productLimit →
      ∀ l, scrapeSequential pageSize productLimit envs acc = some l →
        l.length ≤ productLimit := by
  intro envs
  induction envs with
  | nil =>
    intro acc hpl hacc l hl
    rw [scrapeSequential] at hl
    simp only [Option.some.injEq] at hl
    subst hl
    exact hacc
  | cons env rest ih =>
    intro acc hpl hacc l hl
    rw [scrapeSequential] at hl
    cases hc : (scrape_category pageSize productLimit env).1 with
    | none => rw [hc] at hl; simp at hl
    | some categoryProducts =>
      rw [hc] at hl
      simp only at hl
      split_ifs at hl with h
      · simp only [Option.some.injEq] at hl
        subst hl
        simp [List.length_take]
      · exact ih (acc ++ categoryProducts) hpl
          (by simp only [List.length_append] at h ⊢; omega) l hl

/-- C5: whenever product_limit is positive, scrape returns at most
product_limit records — the merged list is truncated to the global limit —
and each category task returns at most its per-category quota, because a
page is truncated to the remaining quota and the loop stops once the quota
is reached. -/
theorem scrape_respects_product_limit (pageSize maxWorkers productLimit : Nat)
    (envs : List (List (PageOutcome α))) (result : List α)
    (hpos : 0 < productLimit)
    (hres : scrape pageSize maxWorkers productLimit envs = some result) :
    result.length ≤ productLimit ∧
    (∀ (catLimit : Nat) (env : List (PageOutcome α)) (catResult : List α), 0 < catLimit →
      (scrape_category pageSize catLimit env).1 = some catResult →
      catResult.length ≤ catLimit) := by
  constructor
  · unfold scrape at hres
    rw [if_pos hpos] at hres
    by_cases hc : envs.length ≤ 1
    · rw [if_pos hc] at hres
      exact scrapeSequential_length_le pageSize productLimit envs [] hpos (by simp) result hres
    · rw [if_neg hc] at hres
      cases hp : scrapeParallel pageSize (productLimit / envs.length) envs with
      | none => rw [hp] at hres; simp at hres
      | some allProducts =>
        rw [hp] at hres
        simp only [Option.some.injEq] at hres
        subst hres
        split_ifs with hlen
        · simp only [List.length_take]
          omega
        · omega
  · intro catLimit env catResult hcat hres2
    exact scrapeCategoryLoop_length_le pageSize catLimit env [] 0 1 hcat (by simp)
      catResult hres2

/-- Witness for the product-limit theorem: two categories, limit 5, each
category serving a full page of 12 records; the per-category quota 5 / 2 = 2
yields the merged result [0, 1, 0, 1] of length 4 ≤ 5. -/
theorem scrape_respects_product_limit_witness :
    ([0, 1, 0, 1] : List Nat).length ≤ 5 :=
  (scrape_respects_product_limit 12 2 5
    [[PageOutcome.page false (List.range 12)], [PageOutcome.page false (List.range 12)]]
    [0, 1, 0, 1] (by omega) (by decide)).1

/-- C6 (counterexample to the claim as stated): 3 categories, max_workers 2,
global limit 10, every category serving a full page of 12 records.  Each
category task is capped at 10 // 3 = 3, so the merge holds 9 records and
scrape returns 9, not 10. -/
theorem scrape_three_categories_counterexample :
    (scrape 12 2 10 [[PageOutcome.page false (List.range 12)],
        [PageOutcome.page false (List.range 12)],
        [PageOutcome.page false (List.range 12)]] : Option (List Nat))
      = some [0, 1, 2, 0, 1, 2, 0, 1, 2] ∧
    ([0, 1, 2, 0, 1, 2, 0, 1, 2] : List Nat).length = 9 ∧ (9 : Nat) ≠ 10 := by
  refine ⟨by decide, by decide, by decide⟩

/-- A category whose first page is successful, unmarked and holds at least
3 records returns exactly the first 3 records under a per-category limit
of 3. -/
theorem scrape_category_cap_three (pageSize : Nat) (r : List α) (e : List (PageOutcome α))
    (hr : 3 ≤ r.length) :
    (scrape_category pageSize 3 (PageOutcome.page false r :: e)).1 = some (r.take 3) := by
  unfold scrape_category
  rw [scrapeCategoryLoop]
  rw [if_neg (by simp)]
  rw [if_neg (by simp)]
  rw [if_neg (by simp [List.isEmpty_iff]; intro hcon; subst hcon; simp at hr)]
  simp only [List.length_nil, Nat.sub_zero]
  by_cases h3 : 3 < r.length
  · rw [if_pos ⟨by omega, h3⟩]
    simp
  · have hlen : r.length = 3 := by omega
    rw [if_neg (by omega)]
    split_ifs with hps
    · simp only [List.nil_append, Prod.fst]
      rw [show r.take 3 = r from by rw [← hlen]; exact List.take_length r]
    · rw [scrapeCategoryLoop_limitReached pageSize 3 e ([] ++ r) (0 + pageSize) (1 + 1)
        ⟨by omega, by simp [hlen]⟩]
      simp

/-- C6 (amended): with 3 categories, max_workers 2 and global limit 10,
when every category has at least its 10 // 3 = 3 share available, scrape
returns exactly 9 records after the merge — 3 per category, the remainder
of the integer division being lost — and the final truncation to 10 does
not engage because 9 < 10. -/
theorem scrape_three_categories_nine (pageSize maxWorkers : Nat)
    (r1 r2 r3 : List α) (e1 e2 e3 : List (PageOutcome α))
    (h1 : 3 ≤ r1.length) (h2 : 3 ≤ r2.length) (h3 : 3 ≤ r3.length) :
    ∃ l, scrape pageSize maxWorkers 10
        [PageOutcome.page false r1 :: e1, PageOutcome.page false r2 :: e2,
          PageOutcome.page false r3 :: e3] = some l ∧
      l.length = 9 := by
  have c1 := scrape_category_cap_three pageSize r1 e1 h1
  have c2 := scrape_category_cap_three pageSize r2 e2 h2
  have c3 := scrape_category_cap_three pageSize r3 e3 h3
  have hpar : scrapeParallel pageSize 3
      [PageOutcome.page false r1 :: e1, PageOutcome.page false r2 :: e2,
        PageOutcome.page false r3 :: e3]
      = some (r1.take 3 ++ (r2.take 3 ++ (r3.take 3 ++ []))) := by
    rw [scrapeParallel, c1, scrapeParallel, c2, scrapeParallel, c3, scrapeParallel]
  have hlen : (r1.take 3 ++ (r2.take 3 ++ (r3.take 3 ++ []))).length = 9 := by
    simp only [List.length_append, List.length_take, List.length_nil]
    omega
  refine ⟨r1.take 3 ++ (r2.take 3 ++ (r3.take 3 ++ [])), ?_, hlen⟩
  unfold scrape
  rw [if_neg (by simp)]
  norm_num
  simp only [hpar]
  rw [if_neg (by rw [hlen]; omega)]
  simp

/-- Witness for the amended three-category theorem at concrete inputs. -/
theorem scrape_three_categories_nine_witness :
    ∃ l, scrape 12 2 10
        [PageOutcome.page false (List.range 4) :: ([] : List (PageOutcome Nat)),
          PageOutcome.page false (List.range 4) :: [],
          PageOutcome.page false (List.range 4) :: []] = some l ∧
      l.length = 9 :=
  scrape_three_categories_nine 12 2 (List.range 4) (List.range 4) (List.range 4) [] [] []
    (by decide) (by decide) (by decide)

end Pagination

/-- Python str.replace, scanning left to right over the characters: the
second argument counts characters of a just-matched occurrence still to be
skipped, so the recursion is structural and computes non-overlapping
replacement. -/
def replaceGo (pat repl : List Char) : List Char → Nat → List Char
  | [], _ => []
  | _ :: cs, skip + 1 => replaceGo pat repl cs skip
  | c :: cs, 0 =>
    if pat ≠ [] ∧ listStartsWith pat (c :: cs) = true then
      repl ++ replaceGo pat repl cs (pat.length - 1)
    else
      c :: replaceGo pat repl cs 0

/-- Python str.replace: replace every non-overlapping occurrence of the
pattern, scanning left to right. -/
def pyReplace (pat repl l : List Char) : List Char :=
  replaceGo pat repl l 0

/-- Python float() restricted to plain decimal numerals, the shape cleaned
price strings take: optional sign, digits with at most one decimal point,
at least one digit.  Returns none where float() raises ValueError (letters
as in N/A, empty strings, multiple dots).  Exact rationals stand in for
Python floats. -/
def parsePyFloat (s : String) : Option ℚ :=
  let signed : ℚ × List Char :=
    match s.data with
    | '-' :: cs => (-1, cs)
    | '+' :: cs => (1, cs)
    | cs => (1, cs)
  let rest := signed.2
  if rest.all (fun c => c.isDigit || c == '.') = false then none
  else if 2 ≤ (rest.filter (fun c => c == '.')).length then none
  else
    let ip := rest.takeWhile (fun c => c != '.')
    let fp := (rest.dropWhile (fun c => c != '.')).drop 1
    if ip.isEmpty ∧ fp.isEmpty then none
    else some (signed.1 * ((digitsToNat ip : ℚ) + (digitsToNat fp : ℚ) / ((10 ^ fp.length : Nat) : ℚ)))

/-- Python round() to an integer: nearest integer, ties to even. -/
def pyRound (q : ℚ) : ℤ :=
  let f := ⌊q⌋
  let r := q - (f : ℚ)
  if r < 1 / 2 then f
  else if 1 / 2 < r then f + 1
  else if f % 2 = 0 then f else f + 1

/-- The price-string cleanup applied before float(): remove every Rs.
marker, remove commas, strip whitespace. -/
def cleanPrice (s : String) : String :=
  String.mk (trimChars (pyReplace [','] [] (pyReplace ['R', 's', '.'] [] s.data)))

/-- The discount computation of SapphireScraper._extract_products: None
unless the two price strings differ and neither is N/A; then parse both
cleaned prices, and when the original is positive produce
round((original - current) / original * 100); parse failures leave None. -/
def sapphireDiscount (originalPrice price : String) : Option Int :=
  if originalPrice ≠ price ∧ originalPrice ≠ "N/A" ∧ price ≠ "N/A" then
    match parsePyFloat (cleanPrice originalPrice), parsePyFloat (cleanPrice price) with
    | some originalClean, some priceClean =>
      if 0 < originalClean then
        some (pyRound ((originalClean - priceClean) / originalClean * 100))
      else none
    | _, _ => none
  else none

/-- The on_sale flag: discount is not None and discount > 0. -/
def sapphireOnSale (discount : Option Int) : Bool :=
  discount.isSome && decide (0 < discount.getD 0)

/-- C7: discount_percentage is None whenever the original price string
equals the current price string; otherwise, when both cleaned prices parse
and the original is positive, discount_percentage equals
round((original - current) / original * 100) under Python rounding
(ties to even), and on_sale holds exactly when that discount is positive. -/
theorem sapphire_discount_spec (originalPrice price : String) :
    (originalPrice = price → sapphireDiscount originalPrice price = none) ∧
    (∀ o c : ℚ, originalPrice ≠ price →
      parsePyFloat (cleanPrice originalPrice) = some o →
      parsePyFloat (cleanPrice price) = some c →
      0 < o →
      sapphireDiscount originalPrice price = some (pyRound ((o - c) / o * 100)) ∧
      sapphireOnSale (sapphireDiscount originalPrice price)
        = decide (0 < pyRound ((o - c) / o * 100))) := by
  constructor
  · intro h
    subst h
    unfold sapphireDiscount
    rw [if_neg (by simp)]
  · intro o c hne hpo hpc hopos
    have hNAparse : parsePyFloat (cleanPrice "N/A") = none := by decide
    have hoNA : originalPrice ≠ "N/A" := by
      intro h
      rw [h, hNAparse] at hpo
      exact Option.noConfusion hpo
    have hpNA : price ≠ "N/A" := by
      intro h
      rw [h, hNAparse] at hpc
      exact Option.noConfusion hpc
    unfold sapphireDiscount
    rw [if_pos ⟨hne, hoNA, hpNA⟩, hpo, hpc]
    simp [hopos, sapphireOnSale]

/-- Witness for the discount theorem: Rs.2,000.00 reduced to Rs.1,500.00
parses to 2000 and 1500, giving discount 25 and on_sale true. -/
theorem sapphire_discount_spec_witness :
    sapphireDiscount "Rs.2,000.00" "Rs.1,500.00"
        = some (pyRound ((2000 - 1500) / 2000 * 100)) ∧
    sapphireOnSale (sapphireDiscount "Rs.2,000.00" "Rs.1,500.00")
        = decide (0 < pyRound ((2000 - 1500) / 2000 * 100)) := by
  have h2000 : parsePyFloat (cleanPrice "Rs.2,000.00") = some 2000 := by
    rw [show cleanPrice "Rs.2,000.00" = "2000.00" from rfl]
    rw [show parsePyFloat "2000.00"
        = some ((1 : ℚ) * ((digitsToNat ['2', '0', '0', '0'] : ℚ)
            + (digitsToNat ['0', '0'] : ℚ) / ((10 ^ 2 : Nat) : ℚ))) from rfl]
    rw [show digitsToNat ['2', '0', '0', '0'] = 2000 from by decide]
    rw [show digitsToNat ['0', '0'] = 0 from by decide]
    norm_num
  have h1500 : parsePyFloat (cleanPrice "Rs.1,500.00") = some 1500 := by
    rw [show cleanPrice "Rs.1,500.00" = "1500.00" from rfl]
    rw [show parsePyFloat "1500.00"
        = some ((1 : ℚ) * ((digitsToNat ['1', '5', '0', '0'] : ℚ)
            + (digitsToNat ['0', '0'] : ℚ) / ((10 ^ 2 : Nat) : ℚ))) from rfl]
    rw [show digitsToNat ['1', '5', '0', '0'] = 1500 from by decide]
    rw [show digitsToNat ['0', '0'] = 0 from by decide]
    norm_num
  exact (sapphire_discount_spec "Rs.2,000.00" "Rs.1,500.00").2 2000 1500
    (by decide) h2000 h1500 (by norm_num)

/-- Python str.split() with no separator: split on runs of whitespace,
dropping empty pieces.  The accumulator carries the current word reversed. -/
def splitWSAux : List Char → List Char → List (List Char)
  | [], acc => if acc.isEmpty then [] else [acc.reverse]
  | c :: cs, acc =>
    if c.isWhitespace then
      if acc.isEmpty then splitWSAux cs [] else acc.reverse :: splitWSAux cs []
    else splitWSAux cs (c :: acc)

/-- name.split() on whitespace. -/
def pySplit (s : String) : List String :=
  (splitWSAux s.data []).map String.mk

/-- Python str.split on a single-character separator: pieces may be empty
and their count is one more than the separator count. -/
def splitOnChar (sep : Char) : List Char → List (List Char)
  | [] => [[]]
  | c :: cs =>
    if c = sep then [] :: splitOnChar sep cs
    else
      match splitOnChar sep cs with
      | [] => [[c]]
      | w :: ws => (c :: w) :: ws

/-- Python membership test of one character in a string. -/
def containsChar (s : String) (c : Char) : Bool :=
  s.data.contains c

/-- The leading fabric-style words both extractors recognise. -/
def styleWords : List String :=
  ["Printed", "Embroidered", "Dyed", "Digital", "Embellished"]

/-- The two multi-word product types checked before the last-word rule. -/
def pieceTypes : List String :=
  ["3 Piece", "2 Piece"]

/-- words[-2] + " " + words[-1], the candidate two-word suffix. -/
def lastTwoJoined (words : List String) : String :=
  match words.reverse with
  | w1 :: w2 :: _ => w2 ++ " " ++ w1
  | _ => ""

/-- words[-1]; empty when there are no words. -/
def lastWord (words : List String) : String :=
  words.reverse.headD ""

/-- product_type as computed by SapphireScraper._extract_products from the
product name, covering both the dash format and the plain format; the
fabric_style and fabric_type outputs do not influence product_type and are
not modelled. -/
def sapphire_product_type (name : String) : String :=
  if containsChar name '-' then
    match (splitOnChar '-' name.data).map (fun l => String.mk (trimChars l)) with
    | [] => ""
    | p0 :: rest =>
      let pt0 := if p0 ∈ pieceTypes then p0 else ""
      match rest with
      | [] => pt0
      | p1 :: _ =>
        match pySplit p1 with
        | [] => pt0
        | w0 :: ws =>
          if w0 ∈ styleWords then
            if 2 < (w0 :: ws).length then
              if pt0 = "" then lastWord (w0 :: ws) else pt0
            else pt0
          else pt0
  else
    if 2 ≤ (pySplit name).length ∧ lastTwoJoined (pySplit name) ∈ pieceTypes then
      lastTwoJoined (pySplit name)
    else lastWord (pySplit name)

/-- product_type as computed by KhaadiScraper._extract_products from the
product name. -/
def khaadi_product_type (name : String) : String :=
  if 2 ≤ (pySplit name).length ∧ lastTwoJoined (pySplit name) ∈ pieceTypes then
    lastTwoJoined (pySplit name)
  else lastWord (pySplit name)

/-- C8: for every product name without a dash, both extractors return the
joined last two words as product_type when they form 3 Piece or 2 Piece,
and otherwise the last word of the name — the multi-word suffix rule is
checked before the generic last-word fallback. -/
theorem product_type_suffix_rule (name : String)
    (hdash : containsChar name '-' = false) :
    ((2 ≤ (pySplit name).length ∧ lastTwoJoined (pySplit name) ∈ pieceTypes) →
      sapphire_product_type name = lastTwoJoined (pySplit name) ∧
      khaadi_product_type name = lastTwoJoined (pySplit name)) ∧
    (pySplit name ≠ [] →
      ¬ (2 ≤ (pySplit name).length ∧ lastTwoJoined (pySplit name) ∈ pieceTypes) →
      sapphire_product_type name = lastWord (pySplit name) ∧
      khaadi_product_type name = lastWord (pySplit name)) := by
  constructor
  · intro hcond
    unfold sapphire_product_type khaadi_product_type
    rw [hdash]
    simp only [Bool.false_eq_true, if_false]
    rw [if_pos hcond]
    exact ⟨rfl, rfl⟩
  · intro _hne hcond
    unfold sapphire_product_type khaadi_product_type
    rw [hdash]
    simp only [Bool.false_eq_true, if_false]
    rw [if_neg hcond]
    exact ⟨rfl, rfl⟩

/-- Witness for the product-type rule at the name Embroidered Lawn 3 Piece,
whose last two words join to 3 Piece. -/
theorem product_type_suffix_rule_witness :
    sapphire_product_type "Embroidered Lawn 3 Piece" = "3 Piece" ∧
    khaadi_product_type "Embroidered Lawn 3 Piece" = "3 Piece" := by
  have h := (product_type_suffix_rule "Embroidered Lawn 3 Piece" (by decide)).1
    ⟨by decide, by decide⟩
  exact ⟨h.1.trans (by decide), h.2.trans (by decide)⟩

/-- A product or detail dictionary: association list from field name to a
value, first binding wins on lookup as in a Python dict. -/
abbrev FieldMap := List (String × String)

/-- Python dict lookup. -/
def lookupField (m : FieldMap) (k : String) : Option String :=
  match m with
  | [] => none
  | (k1, v) :: rest => if k1 = k then some v else lookupField rest k

/-- Python dict item assignment: overwrite the binding when the key exists,
append it otherwise. -/
def setField (m : FieldMap) (k v : String) : FieldMap :=
  match m with
  | [] => [(k, v)]
  | (k1, v1) :: rest => if k1 = k then (k1, v) :: rest else (k1, v1) :: setField rest k v

/-- Python dict.update with a literal dict: assign the pairs left to
right. -/
def updateFields (m : FieldMap) : List (String × String) → FieldMap
  | [] => m
  | (k, v) :: rest => updateFields (setField m k v) rest

/-- details.get(k, default). -/
def detailGet (details : FieldMap) (k dflt : String) : String :=
  (lookupField details k).getD dflt

/-- Python substring membership test. -/
def chContains : List Char → List Char → Bool
  | [], sub => sub.isEmpty
  | c :: rest, sub => listStartsWith sub (c :: rest) || chContains rest sub

/-- Python `sub in s` on strings. -/
def strContains (s sub : String) : Bool :=
  chContains s.data sub.data

/-- The fields the big product.update call of
enhance_products_with_details writes before its final has_detailed_info
entry.  Values are abstracted to the raw detail entries (the claim under
verification concerns which listings are mutated and which keys appear,
not the transformed values), with the source defaults kept where the code
falls back to the existing product value. -/
def enhanceUpdatesFront (p details : FieldMap) : List (String × String) :=
  [("name", detailGet details "name" (detailGet p "name" "")),
   ("short_description", detailGet details "short_description" ""),
   ("long_description", detailGet details "long_description" ""),
   ("rating", detailGet details "rating" "0"),
   ("is_new", detailGet details "is_new" "False"),
   ("is_sale", detailGet details "is_sale" "False"),
   ("top_fabric", detailGet details "top_fabric" ""),
   ("bottom_fabric", detailGet details "bottom_fabric" ""),
   ("dupatta_fabric", detailGet details "dupatta_fabric" ""),
   ("main_fabric", detailGet details "main_fabric" ""),
   ("material", detailGet details "material" ""),
   ("technique", detailGet details "technique" ""),
   ("colors", detailGet details "colors" ""),
   ("sizes", detailGet details "sizes" ""),
   ("collection", detailGet details "collection" ""),
   ("launch_time", detailGet details "launch_time" ""),
   ("product_concept", detailGet details "product_concept" ""),
   ("price_current", detailGet details "price_current" "0"),
   ("price_original", detailGet details "price_original" "0"),
   ("discount_percentage", detailGet details "discount_percentage" "0"),
   ("in_stock", detailGet details "in_stock" (detailGet p "in_stock" "True")),
   ("remaining_stock", detailGet details "remaining_stock" "0")]

/-- The full update dict: the literal written in the source ends with the
has_detailed_info: True entry. -/
def enhanceUpdates (p details : FieldMap) : List (String × String) :=
  enhanceUpdatesFront p details ++ [("has_detailed_info", "true")]

/-- Enrichment of one listing from its retrieved details: the big
product.update, then the img_url assignment, then the category fixups keyed
on the (possibly updated) product name, then the Fabrics normalisation. -/
def enhanceOne (p details : FieldMap) : FieldMap :=
  let p1 := updateFields p (enhanceUpdates p details)
  let p2 := setField p1 "img_url" (detailGet details "images" "")
  let nm := detailGet p2 "name" ""
  let p3 :=
    if nm ≠ "" then
      if strContains nm "Fabrics" then setField p2 "category" "Unstitched"
      else if strContains nm "Ready" || strContains nm "RTW" then
        setField p2 "category" "Ready to Wear"
      else p2
    else p2
  if detailGet p3 "category" "" = "Fabrics" ∨ detailGet p3 "category" "" = "fabrics" then
    setField p3 "category" "Unstitched"
  else p3

/-- KhaadiScraper.enhance_products_with_details: detailsMap is the result
of get_product_details for this input, keyed by sku (none when the sku was
never requested or never answered, an empty dict when the fetch failed or
returned no data).  Every listing is appended to the output in input
order; a listing is mutated only when a non-empty details dict exists for
its sku. -/
def enhance_products_with_details (detailsMap : String → Option FieldMap)
    (products : List FieldMap) : List FieldMap :=
  products.map (fun p =>
    match detailsMap (detailGet p "sku" "") with
    | some details => if details.isEmpty then p else enhanceOne p details
    | none => p)

/-- Lookup after assignment of the same key. -/
theorem lookupField_setField_self (m : FieldMap) (k v : String) :
    lookupField (setField m k v) k = some v := by
  induction m with
  | nil => simp [setField, lookupField]
  | cons kv rest ih =>
    obtain ⟨k1, v1⟩ := kv
    by_cases h : k1 = k
    · simp [setField, lookupField, h]
    · simp [setField, lookupField, h, ih]

/-- Lookup after assignment of a different key. -/
theorem lookupField_setField_ne (m : FieldMap) (k k1 v : String) (h : k1 ≠ k) :
    lookupField (setField m k1 v) k = lookupField m k := by
  induction m with
  | nil => simp [setField, lookupField, h]
  | cons kv rest ih =>
    obtain ⟨k2, v2⟩ := kv
    by_cases h2 : k2 = k1
    · subst h2
      simp [setField, lookupField, h]
    · by_cases h3 : k2 = k
      · simp [setField, lookupField, h2, h3, Ne.symm h]
      · simp [setField, lookupField, h2, h3, ih]

/-- Updates whose keys all differ from k leave the lookup of k unchanged. -/
theorem lookupField_updateFields_notMem (upds : List (String × String)) :
    ∀ (m : FieldMap) (k : String), (∀ kv ∈ upds, kv.1 ≠ k) →
      lookupField (updateFields m upds) k = lookupField m k := by
  induction upds with
  | nil =>
    intro m k _
    rfl
  | cons kv rest ih =>
    intro m k hall
    obtain ⟨k1, v1⟩ := kv
    rw [updateFields]
    rw [ih (setField m k1 v1) k (fun kv2 h2 => hall kv2 (List.mem_cons_of_mem _ h2))]
    exact lookupField_setField_ne m k k1 v1 (hall (k1, v1) (List.mem_cons_self _ _))

/-- updateFields distributes over list append. -/
theorem updateFields_append (l1 l2 : List (String × String)) :
    ∀ m : FieldMap, updateFields m (l1 ++ l2) = updateFields (updateFields m l1) l2 := by
  induction l1 with
  | nil =>
    intro m
    rfl
  | cons kv rest ih =>
    intro m
    obtain ⟨k, v⟩ := kv
    rw [List.cons_append, updateFields, updateFields, ih]

/-- An enriched listing carries has_detailed_info = true: the update dict
ends with that entry and the assignments that follow touch only the
img_url and category keys. -/
theorem lookupField_enhanceOne_flag (p details : FieldMap) :
    lookupField (enhanceOne p details) "has_detailed_info" = some "true" := by
  have h1 : lookupField (updateFields p (enhanceUpdates p details)) "has_detailed_info"
      = some "true" := by
    rw [enhanceUpdates, updateFields_append]
    rw [show updateFields (updateFields p (enhanceUpdatesFront p details))
        [("has_detailed_info", "true")]
        = setField (updateFields p (enhanceUpdatesFront p details))
            "has_detailed_info" "true" from rfl]
    exact lookupField_setField_self _ _ _
  have h2 : lookupField (setField (updateFields p (enhanceUpdates p details))
      "img_url" (detailGet details "images" "")) "has_detailed_info" = some "true" := by
    rw [lookupField_setField_ne _ _ _ _ (by decide)]
    exact h1
  have hcat : ∀ (m : FieldMap) (v : String),
      lookupField (setField m "category" v) "has_detailed_info"
        = lookupField m "has_detailed_info" :=
    fun m v => lookupField_setField_ne m _ _ v (by decide)
  simp only [enhanceOne]
  split_ifs <;> simp only [hcat, h2]

/-- C9: enhance_products_with_details returns one output listing per input
listing in input order; a listing whose detail fetch failed, returned
empty, or was never issued is returned unchanged (so a listing without the
has_detailed_info key stays without it), and a listing with a non-empty
details dict is the enrichment of that listing, which carries
has_detailed_info = true. -/
theorem enhance_preserves_listings (detailsMap : String → Option FieldMap)
    (products : List FieldMap) :
    (enhance_products_with_details detailsMap products).length = products.length ∧
    (∀ (i : Nat) (p : FieldMap), products.get? i = some p →
      (detailsMap (detailGet p "sku" "") = none ∨
        detailsMap (detailGet p "sku" "") = some []) →
      (enhance_products_with_details detailsMap products).get? i = some p) ∧
    (∀ (i : Nat) (p details : FieldMap), products.get? i = some p →
      detailsMap (detailGet p "sku" "") = some details → details ≠ [] →
      (enhance_products_with_details detailsMap products).get? i
          = some (enhanceOne p details) ∧
      lookupField (enhanceOne p details) "has_detailed_info" = some "true") := by
  refine ⟨?_, ?_, ?_⟩
  · simp [enhance_products_with_details]
  · intro i p hp hfail
    unfold enhance_products_with_details
    rw [List.get?_map, hp]
    rcases hfail with h | h
    · simp [h]
    · simp [h]
  · intro i p details hp hdet hne
    constructor
    · unfold enhance_products_with_details
      rw [List.get?_map, hp]
      simp [hdet, List.isEmpty_iff, hne]
    · exact lookupField_enhanceOne_flag p details

/-- Witness for the enrichment theorem: two listings, details present only
for sku A; the A listing gains the flag, the B listing is unchanged. -/
theorem enhance_preserves_listings_witness :
    (enhance_products_with_details
        (fun s => if s = "A" then some [("name", "Y")] else none)
        [[("sku", "A"), ("name", "X")], [("sku", "B")]]).length = 2 ∧
    (enhance_products_with_details
        (fun s => if s = "A" then some [("name", "Y")] else none)
        [[("sku", "A"), ("name", "X")], [("sku", "B")]]).get? 1
      = some [("sku", "B")] ∧
    lookupField (enhanceOne [("sku", "A"), ("name", "X")] [("name", "Y")])
        "has_detailed_info" = some "true" := by
  have h := enhance_preserves_listings
    (fun s => if s = "A" then some [("name", "Y")] else none)
    [[("sku", "A"), ("name", "X")], [("sku", "B")]]
  refine ⟨h.1, ?_, ?_⟩
  · exact h.2.1 1 [("sku", "B")] rfl (Or.inl (by decide))
  · exact (h.2.2 0 [("sku", "A"), ("name", "X")] [("name", "Y")] rfl (by decide)
      (by decide)).2

/-- The module-level REFERRERS list of src/src/utils/request_utils.py,
read by rotate_identity of every RequestManager in the process. -/
def REFERRERS : List String :=
  ["https://www.google.com/",
   "https://www.bing.com/",
   "https://www.facebook.com/",
   "https://www.instagram.com/",
   "https://www.pinterest.com/",
   "https://twitter.com/",
   "https://pk.sapphireonline.pk/",
   "https://pk.sapphireonline.pk/sale/",
   "https://pk.sapphireonline.pk/collections/",
   "https://pk.sapphireonline.pk/new-arrivals/"]

/-- The nine Khaadi-specific referrers defined in KhaadiScraper.__init__. -/
def khaadiSpecificReferrers : List String :=
  ["https://pk.khaadi.com/",
   "https://pk.khaadi.com/new-in/",
   "https://pk.khaadi.com/sale/",
   "https://pk.khaadi.com/fabrics/",
   "https://pk.khaadi.com/ready-to-wear/",
   "https://pk.khaadi.com/collections/",
   "https://www.google.com/search?q=khaadi+pakistan",
   "https://www.facebook.com/khaadi/",
   "https://www.instagram.com/khaadi/"]

/-- KhaadiScraper._update_request_manager_referrers: RequestManager
instances carry a session attribute but no REFERRERS attribute, so the
hasattr guard fails and the else branch imports the module-level REFERRERS
list and extends it in place.  The argument is the module state before the
call. -/
def updateRequestManagerReferrers (state : List String) : List String :=
  state ++ khaadiSpecificReferrers

/-- Module referrer state after k KhaadiScraper constructions, each of
which calls _update_request_manager_referrers exactly once. -/
def referrersAfter : Nat → List String
  | 0 => REFERRERS
  | k + 1 => updateRequestManagerReferrers (referrersAfter k)

/-- The referrer selection of rotate_identity: random.choice reads the
shared module-level list, whichever scraper owns the RequestManager; i is
the random index. -/
def rotateReferrerChoice (state : List String) (i : Nat) : Option String :=
  state.get? i

/-- C10: k KhaadiScraper constructions leave the module-level referrer
list equal to the original ten entries followed by k copies of the nine
Khaadi referrers — duplicates accumulate, the length is 10 + 9k and every
Khaadi referrer occurs exactly k times — and once a KhaadiScraper has been
constructed, every rotate_identity call reading the shared state,
including those of RequestManagers owned by other scrapers such as
SapphireScraper, may select each Khaadi referrer. -/
theorem khaadi_referrer_pollution (k : Nat) :
    referrersAfter k = REFERRERS ++ (List.replicate k khaadiSpecificReferrers).join ∧
    (referrersAfter k).length = 10 + 9 * k ∧
    (∀ r ∈ khaadiSpecificReferrers, (referrersAfter k).count r = k) ∧
    (∀ r ∈ khaadiSpecificReferrers, 0 < k →
      ∃ i, rotateReferrerChoice (referrersAfter k) i = some r) := by
  have hbase : ∀ r ∈ khaadiSpecificReferrers,
      REFERRERS.count r = 0 ∧ khaadiSpecificReferrers.count r = 1 := by decide
  induction k with
  | zero =>
    refine ⟨by simp [referrersAfter], by decide, ?_, ?_⟩
    · intro r hr
      exact (hbase r hr).1
    · intro r hr h0
      exact absurd h0 (by omega)
  | succ n ih =>
    obtain ⟨he, hlen, hcount, _⟩ := ih
    refine ⟨?_, ?_, ?_, ?_⟩
    · rw [referrersAfter, updateRequestManagerReferrers, he, List.replicate_succ']
      simp [List.append_assoc]
    · rw [referrersAfter, updateRequestManagerReferrers, List.length_append, hlen]
      have h9 : khaadiSpecificReferrers.length = 9 := by decide
      omega
    · intro r hr
      rw [referrersAfter, updateRequestManagerReferrers, List.count_append,
        hcount r hr, (hbase r hr).2]
    · intro r hr _
      have hmem : r ∈ referrersAfter (n + 1) := by
        rw [referrersAfter, updateRequestManagerReferrers]
        exact List.mem_append_right _ hr
      obtain ⟨⟨i, hi⟩, hget⟩ := List.mem_iff_get.mp hmem
      refine ⟨i, ?_⟩
      show (referrersAfter (n + 1)).get? i = some r
      rw [List.get?_eq_get hi, hget]

/-- Witness for the referrer-pollution theorem after two constructions:
28 entries, the main Khaadi referrer occurring twice and selectable. -/
theorem khaadi_referrer_pollution_witness :
    (referrersAfter 2).length = 28 ∧
    (referrersAfter 2).count "https://pk.khaadi.com/" = 2 ∧
    ∃ i, rotateReferrerChoice (referrersAfter 2) i = some "https://pk.khaadi.com/" := by
  have h := khaadi_referrer_pollution 2
  exact ⟨h.2.1.trans (by norm_num), h.2.2.1 "https://pk.khaadi.com/" (by decide),
    h.2.2.2 "https://pk.khaadi.com/" (by decide) (by omega)⟩

end MultiBrandScraper
